import Mathlib

/-!
Verification of the TCHAI ledger integrity engine (`app.py`).

The development shallowly embeds the engine's components:

* `compute_hash` — the chained SHA-256 fingerprint of a transaction
  (SHA-256 is implemented over `Nat` bytes and validated against the
  FIPS 180-4 test vectors below);
* `get_transaction_data_for_signing` — the canonical signable message;
* `verify_signature_with` — the exception-to-boolean wrapper around the
  RSA primitives of the `cryptography` library, which are modelled as
  abstract `Except`-valued parameters;
* `add_transaction_with` — the append endpoint's core (signature gate,
  predecessor selection by timestamp, chained fingerprint);
* `verify_integrity_with` — the audit endpoint's core (chronological
  replay, per-transaction classification, aggregate report).

Python dictionaries with optional keys are modelled with `Option`
fields; the numeric amount is carried as its textual rendering, which
is the only view of it the engine ever uses.  Python's stable `sorted`
on the `t` key is modelled by a stable insertion sort over the
code-point order on strings.
-/

/-! ## SHA-256 over byte lists -/

def utf8Char (c : Char) : List Nat :=
  let n := c.toNat
  if n < 128 then [n]
  else if n < 2048 then [192 + n / 64, 128 + n % 64]
  else if n < 65536 then [224 + n / 4096, 128 + n / 64 % 64, 128 + n % 64]
  else [240 + n / 262144, 128 + n / 4096 % 64, 128 + n / 64 % 64, 128 + n % 64]

def utf8Bytes (s : String) : List Nat := s.data.flatMap utf8Char

def M32 : Nat := 4294967296

def add32 (a b : Nat) : Nat := (a + b) % M32

def rotr (n x : Nat) : Nat := ((x >>> n) ||| (x <<< (32 - n))) % M32

def shr (n x : Nat) : Nat := x >>> n

def xor3 (a b c : Nat) : Nat := (a ^^^ b) ^^^ c

def bS0 (x : Nat) : Nat := xor3 (rotr 2 x) (rotr 13 x) (rotr 22 x)

def bS1 (x : Nat) : Nat := xor3 (rotr 6 x) (rotr 11 x) (rotr 25 x)

def sS0 (x : Nat) : Nat := xor3 (rotr 7 x) (rotr 18 x) (shr 3 x)

def sS1 (x : Nat) : Nat := xor3 (rotr 17 x) (rotr 19 x) (shr 10 x)

def chF (e f g : Nat) : Nat := (e &&& f) ^^^ ((e ^^^ 4294967295) &&& g)

def majF (a b c : Nat) : Nat := ((a &&& b) ^^^ (a &&& c)) ^^^ (b &&& c)

def K256 : List Nat :=
  [1116352408, 1899447441, 3049323471, 3921009573,
   961987163, 1508970993, 2453635748, 2870763221,
   3624381080, 310598401, 607225278, 1426881987,
   1925078388, 2162078206, 2614888103, 3248222580,
   3835390401, 4022224774, 264347078, 604807628,
   770255983, 1249150122, 1555081692, 1996064986,
   2554220882, 2821834349, 2952996808, 3210313671,
   3336571891, 3584528711, 113926993, 338241895,
   666307205, 773529912, 1294757372, 1396182291,
   1695183700, 1986661051, 2177026350, 2456956037,
   2730485921, 2820302411, 3259730800, 3345764771,
   3516065817, 3600352804, 4094571909, 275423344,
   430227734, 506948616, 659060556, 883997877,
   958139571, 1322822218, 1537002063, 1747873779,
   1955562222, 2024104815, 2227730452, 2361852424,
   2428436474, 2756734187, 3204031479, 3329325298]

structure H8 where
  a : Nat
  b : Nat
  c : Nat
  d : Nat
  e : Nat
  f : Nat
  g : Nat
  hh : Nat
deriving DecidableEq

def initH : H8 :=
  ⟨1779033703, 3144134277, 1013904242, 2773480762,
   1359893119, 2600822924, 528734635, 1541459225⟩

def extSched (rws : List Nat) : Nat → List Nat
  | 0 => rws
  | n+1 =>
    let prev := extSched rws n
    let w2 := prev.getD 1 0
    let w7 := prev.getD 6 0
    let w15 := prev.getD 14 0
    let w16 := prev.getD 15 0
    ((sS1 w2 + w7 + sS0 w15 + w16) % M32) :: prev

def schedule (ws16 : List Nat) : List Nat := (extSched ws16.reverse 48).reverse

def roundStep (st : H8) (kw : Nat × Nat) : H8 :=
  let t1 := (st.hh + bS1 st.e + chF st.e st.f st.g + kw.1 + kw.2) % M32
  let t2 := (bS0 st.a + majF st.a st.b st.c) % M32
  ⟨(t1 + t2) % M32, st.a, st.b, st.c, (st.d + t1) % M32, st.e, st.f, st.g⟩

def compressBlock (st : H8) (ws16 : List Nat) : H8 :=
  let fin := (List.zip K256 (schedule ws16)).foldl roundStep st
  ⟨add32 st.a fin.a, add32 st.b fin.b, add32 st.c fin.c, add32 st.d fin.d,
   add32 st.e fin.e, add32 st.f fin.f, add32 st.g fin.g, add32 st.hh fin.hh⟩

def bytesToWords : List Nat → List Nat
  | b0 :: b1 :: b2 :: b3 :: rest =>
      (b0 * 16777216 + b1 * 65536 + b2 * 256 + b3) :: bytesToWords rest
  | _ => []

def toBlocks : Nat → List Nat → List (List Nat)
  | 0, _ => []
  | n+1, l => bytesToWords (l.take 64) :: toBlocks n (l.drop 64)

def padMsg (l : List Nat) : List Nat :=
  let len := l.length
  let bitLen := len * 8
  let k := (119 - len % 64) % 64
  l ++ [128] ++ List.replicate k 0 ++
    [bitLen / 72057594037927936 % 256, bitLen / 281474976710656 % 256,
     bitLen / 1099511627776 % 256, bitLen / 4294967296 % 256,
     bitLen / 16777216 % 256, bitLen / 65536 % 256, bitLen / 256 % 256, bitLen % 256]

def sha256Bytes (l : List Nat) : H8 :=
  let padded := padMsg l
  (toBlocks (padded.length / 64) padded).foldl compressBlock initH

def hexChar (n : Nat) : Char :=
  if n < 10 then Char.ofNat (48 + n) else Char.ofNat (87 + n)

def byteHex (b : Nat) : List Char := [hexChar (b / 16 % 16), hexChar (b % 16)]

def wordBytes (w : Nat) : List Nat := [w / 16777216 % 256, w / 65536 % 256, w / 256 % 256, w % 256]

def digestBytes (st : H8) : List Nat :=
  wordBytes st.a ++ wordBytes st.b ++ wordBytes st.c ++ wordBytes st.d ++
  wordBytes st.e ++ wordBytes st.f ++ wordBytes st.g ++ wordBytes st.hh

def sha256hex (l : List Nat) : String := String.mk ((digestBytes (sha256Bytes l)).flatMap byteHex)

/-! ## Data model

A stored transaction is a JSON dictionary whose keys may be absent
(legacy v1/v2 records); absent keys are modelled by `none`.  The
numeric amount is carried as the textual rendering that Python's
f-strings produce for it, which is the only view the engine uses. -/

structure Tx where
  id : Option Nat
  p1 : Option String
  p2 : Option String
  t : Option String
  a : Option String
  h : Option String
  signature : Option String
deriving DecidableEq

/-- Entries of the `invalid_transactions` list of the audit report; one
constructor per append site in `verify_integrity`. -/
inductive InvalidEntry where
  | noHash (id : Option Nat) (reason : String) (tx : Tx)
  | missingFields (id : Option Nat) (reason : String) (tx : Tx)
  | checkFailed (id : Option Nat) (reason : String)
      (computed_hash stored_hash expected_prev_hash : Option String)
      (signature_valid : Option Bool) (tx : Tx)
deriving DecidableEq

/-- State of the audit loop: the two result lists and the running
expected predecessor fingerprint. -/
structure AState where
  valid_txs : List (Option Nat)
  invalid_txs : List InvalidEntry
  prev_hash : String
deriving DecidableEq

/-- Shape of the JSON report returned by the `/verify` endpoint. -/
structure Report where
  status : String
  valid : Bool
  total_transactions : Nat
  valid_count : Nat
  invalid_count : Nat
  valid_transactions : List (Option Nat)
  invalid_transactions : List InvalidEntry
deriving DecidableEq

/-! ## Python's stable sort by the timestamp key

Python compares strings lexicographically by code point and `sorted` is
stable; a stable insertion sort over that order is an equivalent
executable model. -/

def chLt : List Char → List Char → Bool
  | [], [] => false
  | [], _ :: _ => true
  | _ :: _, [] => false
  | a :: as, b :: bs =>
    if a.toNat < b.toNat then true
    else if b.toNat < a.toNat then false
    else chLt as bs

def pyStrLt (x y : String) : Bool := chLt x.data y.data

/-- Sort key used in `add_transaction` and `verify_integrity`:
`tx.get("t", "")`. -/
def sortKeyT (tx : Tx) : String := tx.t.getD ""

def insertByT (x : Tx) : List Tx → List Tx
  | [] => [x]
  | y :: ys => if pyStrLt (sortKeyT x) (sortKeyT y) then x :: y :: ys else y :: insertByT x ys

/-- Model of `sorted(txs, key=lambda tx: tx.get("t", ""))`. -/
def sortTxs (txs : List Tx) : List Tx := txs.foldl (fun acc tx => insertByT tx acc) []

/-! ## The engine's pure functions (from `app.py`) -/

/-- The function `get_transaction_data_for_signing(p1, p2, t, a)`: the canonical
signable message `"p1|p2|t|a"`. -/
def get_transaction_data_for_signing (p1 p2 t a : String) : String :=
  p1 ++ "|" ++ p2 ++ "|" ++ t ++ "|" ++ a

/-- The function `compute_hash(p1, p2, t, a, prev_hash)`: lowercase-hex SHA-256 of
the UTF-8 bytes of `"p1|p2|t|a|prev_hash"`. -/
def compute_hash (p1 p2 t a prev_hash : String) : String :=
  sha256hex (utf8Bytes (p1 ++ "|" ++ p2 ++ "|" ++ t ++ "|" ++ a ++ "|" ++ prev_hash))

/-- The exception-to-boolean wrapper `verify_signature`.  The RSA
primitives of the `cryptography` library (PEM key loading, base64
decoding, PSS verification) are abstract `Except`-valued parameters;
the wrapper's own control flow — any raised error resolves to `False`,
success to `True` — is the code under verification. -/
def verify_signature_with {PK B : Type} (loadPem : String → Except String PK)
    (b64decode : String → Except String B) (encodeMsg : String → B)
    (rsaVerify : PK → B → B → Except String Unit)
    (public_key_pem message signature_b64 : String) : Bool :=
  match loadPem public_key_pem with
  | Except.error _ => false
  | Except.ok pk =>
    match b64decode signature_b64 with
    | Except.error _ => false
    | Except.ok sig =>
      match rsaVerify pk (encodeMsg message) sig with
      | Except.error _ => false
      | Except.ok _ => true

/-- Resolution of the optional request timestamp:
`t = payload.get("t") or now_iso()` (falsy empty string also falls back). -/
def resolveT (tOpt : Option String) (nowT : String) : String :=
  match tOpt with
  | some s => if s = "" then nowT else s
  | none => nowT

/-- Predecessor-fingerprint selection in `add_transaction` (lines
215-223): start from `"0"`; if transactions exist, sort by timestamp
and take the `h` field of the chronologically last one, when present. -/
def prevHashForAppend (txs : List Tx) : String :=
  match (sortTxs txs).getLast? with
  | none => "0"
  | some last =>
    match last.h with
    | some hh => hh
    | none => "0"

/-- Signature check of the audit (lines 383-392): vacuously true without
a signature; a missing registered key makes it false; otherwise defer to
the signature verifier `VS`. -/
def signatureValidFor (keys : String → Option String) (VS : String → String → String → Bool)
    (p1 p2 t a : String) (sigOpt : Option String) : Bool :=
  match sigOpt with
  | none => true
  | some sig =>
    match keys p1 with
    | some pk => VS pk (get_transaction_data_for_signing p1 p2 t a) sig
    | none => false

/-- The core of the `POST /transactions` endpoint (lines 193-245),
parametric in the fingerprint function `Hf` (instantiated with
`compute_hash`), the key registry `keys` and the signature verifier
`VS`.  Returns the saved ledger and the created transaction, or the
endpoint's error message. -/
def add_transaction_with (Hf : String → String → String → String → String → String)
    (keys : String → Option String) (VS : String → String → String → Bool)
    (txs : List Tx) (p1 p2 a : String) (tOpt : Option String) (nowT : String)
    (sigOpt : Option String) : Except String (List Tx × Tx) :=
  let t := resolveT tOpt nowT
  let sigCheck : Except String Unit :=
    match sigOpt with
    | none => Except.ok ()
    | some sig =>
      match keys p1 with
      | none => Except.error ("Clé publique non trouvée pour " ++ p1 ++
          ". Enregistrez d'abord la clé publique avec POST /keys/" ++ p1)
      | some pk =>
        if VS pk (get_transaction_data_for_signing p1 p2 t a) sig then Except.ok ()
        else Except.error "Signature invalide"
  match sigCheck with
  | Except.error e => Except.error e
  | Except.ok _ =>
    let tx_id := txs.length + 1
    let prev_hash := prevHashForAppend txs
    let h := Hf p1 p2 t a prev_hash
    let tx : Tx :=
      { id := some tx_id, p1 := some p1, p2 := some p2, t := some t, a := some a,
        h := some h, signature := sigOpt }
    Except.ok (txs ++ [tx], tx)

/-- The ledger state after a `POST /transactions` request: the error
paths return before `save_transactions`, leaving the stored ledger
untouched. -/
def add_transaction_ledger (Hf : String → String → String → String → String → String)
    (keys : String → Option String) (VS : String → String → String → Bool)
    (txs : List Tx) (p1 p2 a : String) (tOpt : Option String) (nowT : String)
    (sigOpt : Option String) : List Tx :=
  match add_transaction_with Hf keys VS txs p1 p2 a tOpt nowT sigOpt with
  | Except.ok r => r.1
  | Except.error _ => txs

/-- One iteration of the audit loop of `verify_integrity` (lines
352-417). -/
def auditStep (Hf : String → String → String → String → String → String)
    (keys : String → Option String) (VS : String → String → String → Bool)
    (st : AState) (tx : Tx) : AState :=
  match tx.h with
  | none =>
    { st with invalid_txs := st.invalid_txs ++
        [InvalidEntry.noHash tx.id "Transaction v1 sans hash" tx] }
  | some stored_hash =>
    match tx.p1, tx.p2, tx.t, tx.a with
    | some p1, some p2, some t, some a =>
      let computed_hash := Hf p1 p2 t a st.prev_hash
      let hash_valid := computed_hash == stored_hash
      let signature_valid := signatureValidFor keys VS p1 p2 t a tx.signature
      if hash_valid && signature_valid then
        { valid_txs := st.valid_txs ++ [tx.id], invalid_txs := st.invalid_txs,
          prev_hash := stored_hash }
      else
        { valid_txs := st.valid_txs,
          invalid_txs := st.invalid_txs ++
            [InvalidEntry.checkFailed tx.id
              (String.intercalate "; "
                ((if hash_valid then [] else ["Hash invalide ou chaîne cassée"]) ++
                 (if signature_valid then [] else ["Signature invalide ou clé publique manquante"])))
              (if hash_valid then none else some computed_hash)
              (if hash_valid then none else some stored_hash)
              (if hash_valid then none else some st.prev_hash)
              (if tx.signature.isSome then some signature_valid else none) tx],
          prev_hash := stored_hash }
    | _, _, _, _ =>
      { st with invalid_txs := st.invalid_txs ++
          [InvalidEntry.missingFields tx.id "Champs manquants pour le calcul du hash" tx] }

/-- The core of the `GET /verify` endpoint (lines 336-432), parametric
in the fingerprint function, key registry and signature verifier. -/
def verify_integrity_with (Hf : String → String → String → String → String → String)
    (keys : String → Option String) (VS : String → String → String → Bool)
    (txs : List Tx) : Report :=
  let sorted_txs := sortTxs txs
  let final := sorted_txs.foldl (auditStep Hf keys VS) ⟨[], [], "0"⟩
  let is_valid := final.invalid_txs.length == 0
  { status := if is_valid then "OK" else "KO",
    valid := is_valid,
    total_transactions := txs.length,
    valid_count := final.valid_txs.length,
    invalid_count := final.invalid_txs.length,
    valid_transactions := final.valid_txs,
    invalid_transactions := final.invalid_txs }

/-- The audit `verify_integrity` with the real chained SHA-256 fingerprint. -/
def verify_integrity (keys : String → Option String) (VS : String → String → String → Bool)
    (txs : List Tx) : Report :=
  verify_integrity_with compute_hash keys VS txs

/-- The append `add_transaction` with the real chained SHA-256 fingerprint. -/
def add_transaction (keys : String → Option String) (VS : String → String → String → Bool)
    (txs : List Tx) (p1 p2 a : String) (tOpt : Option String) (nowT : String)
    (sigOpt : Option String) : Except String (List Tx × Tx) :=
  add_transaction_with compute_hash keys VS txs p1 p2 a tOpt nowT sigOpt

/-! ## Chain correctness and audit-run invariants -/

/-- Predicate `chainOk Hf p l`: every transaction of `l` carries all required
fields and a fingerprint, and the fingerprints form a correct chain
seeded with predecessor `p` in the given order. -/
def chainOk (Hf : String → String → String → String → String → String) :
    String → List Tx → Bool
  | _, [] => true
  | p, tx :: rest =>
    match tx.p1, tx.p2, tx.t, tx.a, tx.h with
    | some p1, some p2, some t, some a, some hh =>
      (hh == Hf p1 p2 t a p) && chainOk Hf hh rest
    | _, _, _, _, _ => false

/-- Stored fingerprint of the last transaction of `l`, with default `p`. -/
def lastStoredH (p : String) : List Tx → String
  | [] => p
  | tx :: rest => lastStoredH (tx.h.getD p) rest

/-- Signature check of the audit as a predicate on a whole transaction
(coincides with the inline check for structurally complete records). -/
def txSigOK (keys : String → Option String) (VS : String → String → String → Bool)
    (tx : Tx) : Bool :=
  signatureValidFor keys VS (tx.p1.getD "") (tx.p2.getD "") (tx.t.getD "") (tx.a.getD "")
    tx.signature

/-! ## Concrete example data

The two-transaction ledger of the specification's worked example
(alice pays bob 50, then bob pays carol 30), its amount-mutated
variant, and degenerate records used to exercise the structural
checks.  `keysNone`/`vsFalse` model an empty key registry and a
rejecting verifier; the example records are unsigned, so neither is
ever consulted. -/

def txT1 : Tx :=
  ⟨some 1, some "alice", some "bob", some "t1", some "50",
   some (compute_hash "alice" "bob" "t1" "50" "0"), none⟩

def txT2 : Tx :=
  ⟨some 2, some "bob", some "carol", some "t2", some "30",
   some (compute_hash "bob" "carol" "t2" "30" (compute_hash "alice" "bob" "t1" "50" "0")), none⟩

/-- Variant of `txT1` with its amount changed from `50` to `500`, the stored
fingerprint left untouched. -/
def txT1mut : Tx :=
  ⟨some 1, some "alice", some "bob", some "t1", some "500",
   some (compute_hash "alice" "bob" "t1" "50" "0"), none⟩

/-- A record that carries a stored fingerprint but no amount field. -/
def txNoAmount : Tx := ⟨some 1, some "x", some "y", some "t1", none, some "deadbeef", none⟩

/-- Chronologically early record, appended second. -/
def txEarly : Tx := ⟨some 2, some "a", some "b", some "t1", some "1", some "h1", none⟩

/-- Chronologically late record, appended first. -/
def txLate : Tx := ⟨some 1, some "c", some "d", some "t9", some "2", some "h9", none⟩

/-- Chronologically late record with no fingerprint field. -/
def txLateNoH : Tx := ⟨some 3, some "c", some "d", some "t9", some "2", none, none⟩

def keysNone : String → Option String := fun _ => none

def vsFalse : String → String → String → Bool := fun _ _ _ => false

/-! ## Basic lemmas -/
/-- Validation of the SHA-256 implementation against the FIPS 180-4 test
vector for the empty message. -/
theorem sha256hex_vector_empty :
    sha256hex (utf8Bytes "") =
      "e3b0c44298fc1c149afbf4c8996fb92427ae41e4649b934ca495991b7852b855" := by decide

/-- Validation of the SHA-256 implementation against the FIPS 180-4 test
vector for the message "abc". -/
theorem sha256hex_vector_abc :
    sha256hex (utf8Bytes "abc") =
      "ba7816bf8f01cfea414140de5dae2223b00361a396177a9cb410ff61f20015ad" := by decide

/-! ## Hex rendering facts -/

theorem length_flatMap_byteHex (bs : List Nat) : (bs.flatMap byteHex).length = 2 * bs.length := by
  induction bs with
  | nil => rfl
  | cons b rest ih => simp [List.flatMap_cons, byteHex, ih]; omega

theorem hexChar_mem_of_lt : ∀ n, n < 16 → hexChar n ∈ ("0123456789abcdef").data := by decide

theorem mem_flatMap_byteHex (bs : List Nat) (c : Char) (hc : c ∈ bs.flatMap byteHex) :
    c ∈ ("0123456789abcdef").data := by
  rcases List.mem_flatMap.mp hc with ⟨b, _, hcb⟩
  simp only [byteHex, List.mem_cons, List.not_mem_nil, or_false] at hcb
  rcases hcb with rfl | rfl
  · exact hexChar_mem_of_lt _ (Nat.mod_lt _ (by omega))
  · exact hexChar_mem_of_lt _ (Nat.mod_lt _ (by omega))

theorem sha256hex_length (l : List Nat) : (sha256hex l).length = 64 := by
  show ((digestBytes (sha256Bytes l)).flatMap byteHex).length = 64
  rw [length_flatMap_byteHex]
  rfl

theorem sha256hex_lower_hex (l : List Nat) (c : Char) (hc : c ∈ (sha256hex l).data) :
    c ∈ ("0123456789abcdef").data :=
  mem_flatMap_byteHex _ c hc

theorem length_insertByT (x : Tx) (l : List Tx) : (insertByT x l).length = l.length + 1 := by
  induction l with
  | nil => rfl
  | cons y ys ih =>
    unfold insertByT
    split
    · simp
    · simp [ih]

theorem length_sortTxs_aux (txs : List Tx) :
    ∀ acc : List Tx, (txs.foldl (fun acc tx => insertByT tx acc) acc).length
      = acc.length + txs.length := by
  induction txs with
  | nil => intro acc; simp
  | cons tx rest ih =>
    intro acc
    simp only [List.foldl_cons]
    rw [ih, length_insertByT]
    simp only [List.length_cons]
    omega

theorem length_sortTxs (txs : List Tx) : (sortTxs txs).length = txs.length := by
  have := length_sortTxs_aux txs []
  simpa [sortTxs] using this


/-! ## Audit-step lemmas -/

theorem auditStep_prev_complete (Hf : String → String → String → String → String → String)
    (keys : String → Option String) (VS : String → String → String → Bool)
    (st : AState) (tx : Tx) (p1 p2 t a hh : String)
    (h1 : tx.p1 = some p1) (h2 : tx.p2 = some p2) (h3 : tx.t = some t)
    (h4 : tx.a = some a) (h5 : tx.h = some hh) :
    (auditStep Hf keys VS st tx).prev_hash = hh := by
  obtain ⟨i0, op1, op2, ot, oa, oh, osg⟩ := tx
  simp only at h1 h2 h3 h4 h5
  subst h1 h2 h3 h4 h5
  simp only [auditStep]
  split <;> rfl

theorem auditStep_prev_noHash (Hf : String → String → String → String → String → String)
    (keys : String → Option String) (VS : String → String → String → Bool)
    (st : AState) (tx : Tx) (h5 : tx.h = none) :
    (auditStep Hf keys VS st tx).prev_hash = st.prev_hash := by
  obtain ⟨i0, op1, op2, ot, oa, oh, osg⟩ := tx
  simp only at h5
  subst h5
  rfl

theorem auditStep_prev_missingField (Hf : String → String → String → String → String → String)
    (keys : String → Option String) (VS : String → String → String → Bool)
    (st : AState) (tx : Tx) (hh : String) (h5 : tx.h = some hh)
    (hmiss : tx.p1 = none ∨ tx.p2 = none ∨ tx.t = none ∨ tx.a = none) :
    (auditStep Hf keys VS st tx).prev_hash = st.prev_hash := by
  obtain ⟨i0, op1, op2, ot, oa, oh, osg⟩ := tx
  simp only at h5 hmiss
  subst h5
  cases op1 <;> cases op2 <;> cases ot <;> cases oa <;>
    first
      | rfl
      | (exfalso; simp at hmiss)

theorem auditStep_counts (Hf : String → String → String → String → String → String)
    (keys : String → Option String) (VS : String → String → String → Bool)
    (st : AState) (tx : Tx) :
    ((auditStep Hf keys VS st tx).valid_txs).length
        + ((auditStep Hf keys VS st tx).invalid_txs).length
      = st.valid_txs.length + st.invalid_txs.length + 1 := by
  obtain ⟨i0, op1, op2, ot, oa, oh, osg⟩ := tx
  cases oh <;> cases op1 <;> cases op2 <;> cases ot <;> cases oa <;>
    simp only [auditStep] <;> first
      | (simp [List.length_append]; omega)
      | (split <;> simp [List.length_append] <;> omega)

theorem foldl_auditStep_counts (Hf : String → String → String → String → String → String)
    (keys : String → Option String) (VS : String → String → String → Bool)
    (l : List Tx) : ∀ st : AState,
    ((l.foldl (auditStep Hf keys VS) st).valid_txs).length
        + ((l.foldl (auditStep Hf keys VS) st).invalid_txs).length
      = st.valid_txs.length + st.invalid_txs.length + l.length := by
  induction l with
  | nil => intro st; simp
  | cons tx rest ih =>
    intro st
    simp only [List.foldl_cons, List.length_cons]
    rw [ih]
    have hstep := auditStep_counts Hf keys VS st tx
    omega

theorem chainOk_append (Hf : String → String → String → String → String → String)
    (l1 l2 : List Tx) : ∀ p,
    chainOk Hf p (l1 ++ l2) = (chainOk Hf p l1 && chainOk Hf (lastStoredH p l1) l2) := by
  induction l1 with
  | nil => intro p; simp [chainOk, lastStoredH]
  | cons tx rest ih =>
    intro p
    obtain ⟨i0, op1, op2, ot, oa, oh, osg⟩ := tx
    cases oh with
    | none =>
      cases op1 <;> cases op2 <;> cases ot <;> cases oa <;>
        simp [List.cons_append, chainOk, lastStoredH]
    | some hh =>
    cases op1 with
    | none => simp [List.cons_append, chainOk, lastStoredH]
    | some p1 =>
    cases op2 with
    | none => simp [List.cons_append, chainOk, lastStoredH]
    | some p2 =>
    cases ot with
    | none => simp [List.cons_append, chainOk, lastStoredH]
    | some t =>
    cases oa with
    | none => simp [List.cons_append, chainOk, lastStoredH]
    | some a =>
    simp only [List.cons_append, chainOk, lastStoredH, Option.getD_some, List.append_eq]
    rw [ih]
    rw [Bool.and_assoc]

theorem foldl_auditStep_validRun (Hf : String → String → String → String → String → String)
    (keys : String → Option String) (VS : String → String → String → Bool)
    (l : List Tx) : ∀ (v : List (Option Nat)) (i : List InvalidEntry) (p : String),
    chainOk Hf p l = true →
    (∀ tx ∈ l, txSigOK keys VS tx = true) →
    l.foldl (auditStep Hf keys VS) ⟨v, i, p⟩ = ⟨v ++ l.map Tx.id, i, lastStoredH p l⟩ := by
  induction l with
  | nil => intro v i p _ _; simp [lastStoredH]
  | cons tx rest ih =>
    intro v i p hchain hsig
    obtain ⟨i0, op1, op2, ot, oa, oh, osg⟩ := tx
    cases oh with
    | none => simp [chainOk] at hchain
    | some hh =>
    cases op1 with
    | none => simp [chainOk] at hchain
    | some p1 =>
    cases op2 with
    | none => simp [chainOk] at hchain
    | some p2 =>
    cases ot with
    | none => simp [chainOk] at hchain
    | some t =>
    cases oa with
    | none => simp [chainOk] at hchain
    | some a =>
    simp only [chainOk, Bool.and_eq_true] at hchain
    obtain ⟨hbeq, hrest⟩ := hchain
    have heq : hh = Hf p1 p2 t a p := eq_of_beq hbeq
    have hsighead : txSigOK keys VS ⟨i0, some p1, some p2, some t, some a, some hh, osg⟩ = true :=
      hsig _ (List.mem_cons_self _ _)
    have hsigrest : ∀ tx ∈ rest, txSigOK keys VS tx = true :=
      fun tx hx => hsig tx (List.mem_cons_of_mem _ hx)
    simp only [txSigOK, Option.getD_some] at hsighead
    subst heq
    simp only [List.foldl_cons, auditStep, beq_self_eq_true, hsighead, Bool.and_self, if_true]
    rw [ih (v ++ [i0]) i (Hf p1 p2 t a p) hrest hsigrest]
    simp [lastStoredH]

/-! ## Claim theorems -/

/-- C6: for every sender, recipient, timestamp, amount and predecessor
fingerprint, `compute_hash` is the lowercase-hex SHA-256 digest of the
UTF-8 bytes of the canonical message `"sender|recipient|timestamp|amount"`
concatenated with `"|"` and the predecessor fingerprint; the
chronologically first transaction gets the genesis predecessor `"0"`
(see `prevHashForAppend` on the empty ledger).  `compute_hash` is a pure
function of its five string arguments, so determinism and freedom from
side effects hold by construction. -/
theorem compute_hash_canonical (p1 p2 t a prev : String) :
    compute_hash p1 p2 t a prev
        = sha256hex (utf8Bytes (get_transaction_data_for_signing p1 p2 t a ++ "|" ++ prev))
    ∧ (compute_hash p1 p2 t a prev).length = 64
    ∧ ((compute_hash p1 p2 t a prev).data.all fun c =>
        decide (c ∈ ("0123456789abcdef").data)) = true
    ∧ prevHashForAppend [] = "0" := by
  refine ⟨?_, sha256hex_length _, ?_, rfl⟩
  · unfold compute_hash get_transaction_data_for_signing
    rw [String.append_assoc, String.append_assoc, String.append_assoc,
      String.append_assoc, String.append_assoc]
  · rw [List.all_eq_true]
    intro c hc
    exact decide_eq_true (sha256hex_lower_hex _ c hc)

/-- C9: the audit is deterministic over its inputs; two runs on the
same ledger snapshot, key registry and signature verifier produce
identical reports.  In the embedding every piece of ambient state the
Python code reads (the transaction file, the key file) is an explicit
argument, so the report is a pure function of them. -/
theorem audit_deterministic (Hf : String → String → String → String → String → String)
    (keys keys' : String → Option String) (VS VS' : String → String → String → Bool)
    (txs txs' : List Tx) (hk : keys = keys') (hv : VS = VS') (ht : txs = txs') :
    verify_integrity_with Hf keys VS txs = verify_integrity_with Hf keys' VS' txs' := by
  subst hk hv ht
  rfl

/-- Witness for C9 at the concrete two-transaction example ledger. -/
theorem audit_deterministic_witness :
    verify_integrity_with compute_hash keysNone vsFalse [txT1, txT2]
      = verify_integrity_with compute_hash keysNone vsFalse [txT1, txT2] :=
  audit_deterministic compute_hash keysNone keysNone vsFalse vsFalse [txT1, txT2] [txT1, txT2]
    rfl rfl rfl

/-- C8: the audit never aborts: the report's totals always account for
every transaction (valid_count + invalid_count = total number of
transactions, each count being the length of the corresponding list),
and the ledger-wide verdict is intact exactly when the invalid list is
empty (equivalently, when the status string is "OK"). -/
theorem audit_complete_report (Hf : String → String → String → String → String → String)
    (keys : String → Option String) (VS : String → String → String → Bool) (txs : List Tx) :
    (verify_integrity_with Hf keys VS txs).total_transactions = txs.length
    ∧ (verify_integrity_with Hf keys VS txs).valid_count
        = (verify_integrity_with Hf keys VS txs).valid_transactions.length
    ∧ (verify_integrity_with Hf keys VS txs).invalid_count
        = (verify_integrity_with Hf keys VS txs).invalid_transactions.length
    ∧ (verify_integrity_with Hf keys VS txs).valid_count
        + (verify_integrity_with Hf keys VS txs).invalid_count
        = (verify_integrity_with Hf keys VS txs).total_transactions
    ∧ ((verify_integrity_with Hf keys VS txs).valid = true
        ↔ (verify_integrity_with Hf keys VS txs).invalid_transactions = [])
    ∧ ((verify_integrity_with Hf keys VS txs).valid = true
        ↔ (verify_integrity_with Hf keys VS txs).status = "OK") := by
  have hc := foldl_auditStep_counts Hf keys VS (sortTxs txs) ⟨[], [], "0"⟩
  refine ⟨rfl, rfl, rfl, ?_, ?_, ?_⟩
  · show ((sortTxs txs).foldl (auditStep Hf keys VS) ⟨[], [], "0"⟩).valid_txs.length
        + ((sortTxs txs).foldl (auditStep Hf keys VS) ⟨[], [], "0"⟩).invalid_txs.length
      = txs.length
    rw [hc]
    simp [length_sortTxs]
  · show ((((sortTxs txs).foldl (auditStep Hf keys VS) ⟨[], [], "0"⟩).invalid_txs.length == 0)
        = true)
      ↔ ((sortTxs txs).foldl (auditStep Hf keys VS) ⟨[], [], "0"⟩).invalid_txs = []
    simp [List.length_eq_zero]
  · have hval : (verify_integrity_with Hf keys VS txs).valid
        = (((sortTxs txs).foldl (auditStep Hf keys VS) ⟨[], [], "0"⟩).invalid_txs.length == 0) :=
      rfl
    have hst : (verify_integrity_with Hf keys VS txs).status
        = (if (((sortTxs txs).foldl (auditStep Hf keys VS) ⟨[], [], "0"⟩).invalid_txs.length == 0)
            then "OK" else "KO") := rfl
    rw [hval, hst]
    cases (((sortTxs txs).foldl (auditStep Hf keys VS) ⟨[], [], "0"⟩).invalid_txs.length == 0)
    · exact iff_of_false (by simp) (by simp)
    · exact iff_of_true rfl rfl

/-- C3: on append, the predecessor fingerprint is selected by sorting
the existing transactions by timestamp ascending: `"0"` when no
transactions exist, otherwise the stored `h` field of the transaction
with the greatest timestamp (the last of the sorted list, not
necessarily the most recently appended record); the new transaction is
fingerprinted against that predecessor and appended. -/
theorem append_prev_selection (Hf : String → String → String → String → String → String)
    (keys : String → Option String) (VS : String → String → String → Bool)
    (txs : List Tx) (p1 p2 a : String) (tOpt : Option String) (nowT : String)
    (last : Tx) (hh : String)
    (hlast : (sortTxs txs).getLast? = some last) (hstored : last.h = some hh) :
    prevHashForAppend [] = "0"
    ∧ prevHashForAppend txs = hh
    ∧ add_transaction_with Hf keys VS txs p1 p2 a tOpt nowT none
        = Except.ok (txs ++
            [⟨some (txs.length + 1), some p1, some p2, some (resolveT tOpt nowT), some a,
              some (Hf p1 p2 (resolveT tOpt nowT) a hh), none⟩],
            ⟨some (txs.length + 1), some p1, some p2, some (resolveT tOpt nowT), some a,
              some (Hf p1 p2 (resolveT tOpt nowT) a hh), none⟩) := by
  have hprev : prevHashForAppend txs = hh := by
    unfold prevHashForAppend
    simp only [hlast, hstored]
  refine ⟨rfl, hprev, ?_⟩
  unfold add_transaction_with
  rw [hprev]

/-- Witness for C3: a ledger whose chronologically last transaction
(`txLate`, timestamp "t9") is the one appended first; its fingerprint
"h9" is selected, not that of the most recently appended `txEarly`. -/
theorem append_prev_selection_witness :
    prevHashForAppend [] = "0"
    ∧ prevHashForAppend [txLate, txEarly] = "h9"
    ∧ add_transaction_with compute_hash keysNone vsFalse [txLate, txEarly] "alice" "bob" "50"
        (some "t5") "tnow" none
        = Except.ok ([txLate, txEarly] ++
            [⟨some ([txLate, txEarly].length + 1), some "alice", some "bob",
              some (resolveT (some "t5") "tnow"), some "50",
              some (compute_hash "alice" "bob" (resolveT (some "t5") "tnow") "50" "h9"), none⟩],
            ⟨some ([txLate, txEarly].length + 1), some "alice", some "bob",
              some (resolveT (some "t5") "tnow"), some "50",
              some (compute_hash "alice" "bob" (resolveT (some "t5") "tnow") "50" "h9"), none⟩) :=
  append_prev_selection compute_hash keysNone vsFalse [txLate, txEarly] "alice" "bob" "50"
    (some "t5") "tnow" txLate "h9" (by decide) rfl

/-- C10: when the chronologically last transaction of a non-empty
ledger carries no fingerprint field, the append falls back to the
genesis predecessor `"0"`, regardless of the fingerprints of earlier
transactions. -/
theorem append_prev_genesis_fallback (Hf : String → String → String → String → String → String)
    (keys : String → Option String) (VS : String → String → String → Bool)
    (txs : List Tx) (p1 p2 a : String) (tOpt : Option String) (nowT : String) (last : Tx)
    (hlast : (sortTxs txs).getLast? = some last) (hnone : last.h = none) :
    prevHashForAppend txs = "0"
    ∧ add_transaction_with Hf keys VS txs p1 p2 a tOpt nowT none
        = Except.ok (txs ++
            [⟨some (txs.length + 1), some p1, some p2, some (resolveT tOpt nowT), some a,
              some (Hf p1 p2 (resolveT tOpt nowT) a "0"), none⟩],
            ⟨some (txs.length + 1), some p1, some p2, some (resolveT tOpt nowT), some a,
              some (Hf p1 p2 (resolveT tOpt nowT) a "0"), none⟩) := by
  have hprev : prevHashForAppend txs = "0" := by
    unfold prevHashForAppend
    simp only [hlast, hnone]
  refine ⟨hprev, ?_⟩
  unfold add_transaction_with
  rw [hprev]

/-- Witness for C10: the chronologically last record `txLateNoH` has no
fingerprint while the earlier `txEarly` does carry one ("h1"); the
predecessor still falls back to "0". -/
theorem append_prev_genesis_fallback_witness :
    prevHashForAppend [txEarly, txLateNoH] = "0"
    ∧ add_transaction_with compute_hash keysNone vsFalse [txEarly, txLateNoH] "alice" "bob" "50"
        (some "t5") "tnow" none
        = Except.ok ([txEarly, txLateNoH] ++
            [⟨some ([txEarly, txLateNoH].length + 1), some "alice", some "bob",
              some (resolveT (some "t5") "tnow"), some "50",
              some (compute_hash "alice" "bob" (resolveT (some "t5") "tnow") "50" "0"), none⟩],
            ⟨some ([txEarly, txLateNoH].length + 1), some "alice", some "bob",
              some (resolveT (some "t5") "tnow"), some "50",
              some (compute_hash "alice" "bob" (resolveT (some "t5") "tnow") "50" "0"), none⟩) :=
  append_prev_genesis_fallback compute_hash keysNone vsFalse [txEarly, txLateNoH] "alice" "bob"
    "50" (some "t5") "tnow" txLateNoH (by decide) rfl

/-- C4: a transaction carrying a fingerprint and all required fields is
classified valid by the audit step exactly when its recomputed
fingerprint matches the stored one and the signature check passes; the
signature check is vacuously true without a signature, and false for a
signed transaction whose sender has no registered key. -/
theorem audit_valid_classification (Hf : String → String → String → String → String → String)
    (keys : String → Option String) (VS : String → String → String → Bool)
    (st : AState) (tx : Tx) (p1 p2 t a hh : String)
    (h1 : tx.p1 = some p1) (h2 : tx.p2 = some p2) (h3 : tx.t = some t)
    (h4 : tx.a = some a) (h5 : tx.h = some hh) :
    ((auditStep Hf keys VS st tx).valid_txs = st.valid_txs ++ [tx.id]
        ↔ (Hf p1 p2 t a st.prev_hash = hh
            ∧ signatureValidFor keys VS p1 p2 t a tx.signature = true))
    ∧ (tx.signature = none → signatureValidFor keys VS p1 p2 t a tx.signature = true)
    ∧ (∀ sig, tx.signature = some sig → keys p1 = none →
        signatureValidFor keys VS p1 p2 t a tx.signature = false) := by
  obtain ⟨i0, op1, op2, ot, oa, oh, osg⟩ := tx
  simp only at h1 h2 h3 h4 h5
  subst h1 h2 h3 h4 h5
  refine ⟨?_, ?_, ?_⟩
  · simp only [auditStep]
    cases hcond : ((Hf p1 p2 t a st.prev_hash == hh) && signatureValidFor keys VS p1 p2 t a osg) with
    | false =>
      simp only [if_neg Bool.false_ne_true]
      constructor
      · intro hc
        exfalso
        have hlen := congrArg List.length hc
        simp at hlen
      · rintro ⟨heq, hsv⟩
        rw [heq, hsv, beq_self_eq_true] at hcond
        simp at hcond
    | true =>
      simp only [if_pos rfl]
      rw [Bool.and_eq_true] at hcond
      obtain ⟨hbeq, hsv⟩ := hcond
      exact iff_of_true rfl ⟨eq_of_beq hbeq, hsv⟩
  · intro hsg
    simp only at hsg
    subst hsg
    rfl
  · intro sig hsg hkey
    simp only at hsg
    subst hsg
    simp [signatureValidFor, hkey]

/-- Witness for C4: the correctly fingerprinted unsigned `txT1` is
classified valid from the genesis state. -/
theorem audit_valid_classification_witness :
    (auditStep compute_hash keysNone vsFalse ⟨[], [], "0"⟩ txT1).valid_txs
      = ([] : List (Option Nat)) ++ [txT1.id] :=
  (audit_valid_classification compute_hash keysNone vsFalse ⟨[], [], "0"⟩ txT1
    "alice" "bob" "t1" "50" (compute_hash "alice" "bob" "t1" "50" "0")
    rfl rfl rfl rfl rfl).1.mpr ⟨rfl, rfl⟩

/-- C2 (amended): during an audit, for every transaction that carries a
fingerprint and all required fields — whether it is then classified
valid or invalid — the expected predecessor fingerprint for the next
transaction is updated to that transaction's stored fingerprint, never
to the recomputed one (the conclusion holds for every fingerprint
function `Hf`, so no recomputation can influence it); transactions
rejected structurally (no fingerprint, or missing required fields)
leave the expected predecessor unchanged. -/
theorem audit_prev_update (Hf : String → String → String → String → String → String)
    (keys : String → Option String) (VS : String → String → String → Bool)
    (st : AState) (tx : Tx) :
    (∀ p1 p2 t a hh, tx.p1 = some p1 → tx.p2 = some p2 → tx.t = some t → tx.a = some a →
        tx.h = some hh → (auditStep Hf keys VS st tx).prev_hash = hh)
    ∧ (tx.h = none → (auditStep Hf keys VS st tx).prev_hash = st.prev_hash)
    ∧ (∀ hh, tx.h = some hh →
        (tx.p1 = none ∨ tx.p2 = none ∨ tx.t = none ∨ tx.a = none) →
        (auditStep Hf keys VS st tx).prev_hash = st.prev_hash) :=
  ⟨fun p1 p2 t a hh h1 h2 h3 h4 h5 =>
      auditStep_prev_complete Hf keys VS st tx p1 p2 t a hh h1 h2 h3 h4 h5,
   fun h5 => auditStep_prev_noHash Hf keys VS st tx h5,
   fun hh h5 hmiss => auditStep_prev_missingField Hf keys VS st tx hh h5 hmiss⟩

/-- Witness for C2 (amended): the amount-mutated `txT1mut` has a
recomputed fingerprint different from its stored one, yet the audit
carries its stored fingerprint forward. -/
theorem audit_prev_update_witness :
    (auditStep compute_hash keysNone vsFalse ⟨[], [], "0"⟩ txT1mut).prev_hash
      = compute_hash "alice" "bob" "t1" "50" "0" :=
  (audit_prev_update compute_hash keysNone vsFalse ⟨[], [], "0"⟩ txT1mut).1
    "alice" "bob" "t1" "500" (compute_hash "alice" "bob" "t1" "50" "0") rfl rfl rfl rfl rfl

/-- Counterexample to C2 as stated: `txNoAmount` carries the stored
fingerprint "deadbeef" but lacks the amount field; the audit processes
it (classifying it invalid), yet the expected predecessor for the next
transaction remains "0", not the stored fingerprint. -/
theorem audit_prev_update_counterexample :
    txNoAmount.h = some "deadbeef"
    ∧ (List.foldl (auditStep compute_hash keysNone vsFalse) ⟨[], [], "0"⟩
        [txNoAmount]).invalid_txs.length = 1
    ∧ (List.foldl (auditStep compute_hash keysNone vsFalse) ⟨[], [], "0"⟩
        [txNoAmount]).prev_hash = "0"
    ∧ ("0" : String) ≠ "deadbeef" :=
  ⟨rfl, rfl, rfl, by decide⟩

/-- C7: when an append request carries a signature that does not verify
(or the sender has no registered key), the append fails with the
endpoint's error, the stored ledger is left unchanged, and the outcome
is the same for every fingerprint function — no fingerprint is involved
in the decision. -/
theorem append_signature_gate
    (Hf Hf' : String → String → String → String → String → String)
    (keys : String → Option String) (VS : String → String → String → Bool)
    (txs : List Tx) (p1 p2 a : String) (tOpt : Option String) (nowT : String) (sig : String) :
    (keys p1 = none →
        add_transaction_with Hf keys VS txs p1 p2 a tOpt nowT (some sig)
            = Except.error ("Clé publique non trouvée pour " ++ p1 ++
                ". Enregistrez d'abord la clé publique avec POST /keys/" ++ p1)
        ∧ add_transaction_ledger Hf keys VS txs p1 p2 a tOpt nowT (some sig) = txs
        ∧ add_transaction_with Hf keys VS txs p1 p2 a tOpt nowT (some sig)
            = add_transaction_with Hf' keys VS txs p1 p2 a tOpt nowT (some sig))
    ∧ (∀ pk, keys p1 = some pk →
        VS pk (get_transaction_data_for_signing p1 p2 (resolveT tOpt nowT) a) sig = false →
        add_transaction_with Hf keys VS txs p1 p2 a tOpt nowT (some sig)
            = Except.error "Signature invalide"
        ∧ add_transaction_ledger Hf keys VS txs p1 p2 a tOpt nowT (some sig) = txs
        ∧ add_transaction_with Hf keys VS txs p1 p2 a tOpt nowT (some sig)
            = add_transaction_with Hf' keys VS txs p1 p2 a tOpt nowT (some sig)) := by
  constructor
  · intro hkey
    have he : ∀ Hg : String → String → String → String → String → String,
        add_transaction_with Hg keys VS txs p1 p2 a tOpt nowT (some sig)
          = Except.error ("Clé publique non trouvée pour " ++ p1 ++
              ". Enregistrez d'abord la clé publique avec POST /keys/" ++ p1) := by
      intro Hg
      simp [add_transaction_with, hkey]
    refine ⟨he Hf, ?_, by rw [he Hf, he Hf']⟩
    unfold add_transaction_ledger
    rw [he Hf]
  · intro pk hkey hvs
    have he : ∀ Hg : String → String → String → String → String → String,
        add_transaction_with Hg keys VS txs p1 p2 a tOpt nowT (some sig)
          = Except.error "Signature invalide" := by
      intro Hg
      simp [add_transaction_with, hkey, hvs]
    refine ⟨he Hf, ?_, by rw [he Hf, he Hf']⟩
    unfold add_transaction_ledger
    rw [he Hf]

/-- Witness for C7: with an empty key registry, a signed append request
fails with the missing-key error, the ledger stays empty, and the
result does not depend on the fingerprint function. -/
theorem append_signature_gate_witness :
    add_transaction_with compute_hash keysNone vsFalse [] "alice" "bob" "50" none "t0" (some "SIG")
        = Except.error ("Clé publique non trouvée pour " ++ "alice" ++
            ". Enregistrez d'abord la clé publique avec POST /keys/" ++ "alice")
    ∧ add_transaction_ledger compute_hash keysNone vsFalse [] "alice" "bob" "50" none "t0"
        (some "SIG") = []
    ∧ add_transaction_with compute_hash keysNone vsFalse [] "alice" "bob" "50" none "t0"
        (some "SIG")
      = add_transaction_with (fun _ _ _ _ _ => "X") keysNone vsFalse [] "alice" "bob" "50" none
          "t0" (some "SIG") :=
  (append_signature_gate compute_hash (fun _ _ _ _ _ => "X") keysNone vsFalse [] "alice" "bob"
    "50" none "t0" "SIG").1 rfl

/-- C5: the signature verifier is total and never raises: it returns
`true` exactly when every stage of the pipeline (PEM key loading,
base64 decoding, RSA-PSS verification) succeeds, and any malformed key,
malformed signature or mismatched message — each modelled as the
corresponding library primitive returning an error — yields `false`. -/
theorem verify_signature_never_raises (PK B : Type)
    (loadPem : String → Except String PK) (b64decode : String → Except String B)
    (encodeMsg : String → B) (rsaVerify : PK → B → B → Except String Unit)
    (pem msg sig : String) :
    (verify_signature_with loadPem b64decode encodeMsg rsaVerify pem msg sig = true
        ↔ ∃ pk s, loadPem pem = Except.ok pk ∧ b64decode sig = Except.ok s
            ∧ rsaVerify pk (encodeMsg msg) s = Except.ok ())
    ∧ (∀ e, loadPem pem = Except.error e →
        verify_signature_with loadPem b64decode encodeMsg rsaVerify pem msg sig = false)
    ∧ (∀ pk e, loadPem pem = Except.ok pk → b64decode sig = Except.error e →
        verify_signature_with loadPem b64decode encodeMsg rsaVerify pem msg sig = false)
    ∧ (∀ pk s e, loadPem pem = Except.ok pk → b64decode sig = Except.ok s →
        rsaVerify pk (encodeMsg msg) s = Except.error e →
        verify_signature_with loadPem b64decode encodeMsg rsaVerify pem msg sig = false) := by
  have hfalse1 : ∀ e, loadPem pem = Except.error e →
      verify_signature_with loadPem b64decode encodeMsg rsaVerify pem msg sig = false := by
    intro e he
    simp only [verify_signature_with, he]
  have hfalse2 : ∀ pk e, loadPem pem = Except.ok pk → b64decode sig = Except.error e →
      verify_signature_with loadPem b64decode encodeMsg rsaVerify pem msg sig = false := by
    intro pk e h1 h2
    simp only [verify_signature_with, h1, h2]
  have hfalse3 : ∀ pk s e, loadPem pem = Except.ok pk → b64decode sig = Except.ok s →
      rsaVerify pk (encodeMsg msg) s = Except.error e →
      verify_signature_with loadPem b64decode encodeMsg rsaVerify pem msg sig = false := by
    intro pk s e h1 h2 h3
    simp only [verify_signature_with, h1, h2, h3]
  have htrue : ∀ pk s, loadPem pem = Except.ok pk → b64decode sig = Except.ok s →
      rsaVerify pk (encodeMsg msg) s = Except.ok () →
      verify_signature_with loadPem b64decode encodeMsg rsaVerify pem msg sig = true := by
    intro pk s h1 h2 h3
    simp only [verify_signature_with, h1, h2, h3]
  refine ⟨⟨?_, ?_⟩, hfalse1, hfalse2, hfalse3⟩
  · intro hres
    cases hl : loadPem pem with
    | error e =>
      rw [hfalse1 e hl] at hres
      exact Bool.noConfusion hres
    | ok pk =>
      cases hb : b64decode sig with
      | error e =>
        rw [hfalse2 pk e hl hb] at hres
        exact Bool.noConfusion hres
      | ok s =>
        cases hv : rsaVerify pk (encodeMsg msg) s with
        | error e =>
          rw [hfalse3 pk s e hl hb hv] at hres
          exact Bool.noConfusion hres
        | ok u =>
          cases u
          exact ⟨pk, s, rfl, rfl, hv⟩
  · rintro ⟨pk, s, h1, h2, h3⟩
    exact htrue pk s h1 h2 h3

/-- Witness for C5: a key loader that rejects its input (a non-PEM key
string) makes the verifier return `false` rather than fault. -/
theorem verify_signature_never_raises_witness :
    verify_signature_with (fun _ => (Except.error "not a PEM key" : Except String Unit))
      (fun s => (Except.ok s : Except String String)) (fun s => s)
      (fun _ _ _ => Except.ok ()) "garbage" "alice|bob|t1|50" "c2ln" = false :=
  (verify_signature_never_raises Unit String
    (fun _ => Except.error "not a PEM key") (fun s => Except.ok s) (fun s => s)
    (fun _ _ _ => Except.ok ()) "garbage" "alice|bob|t1|50" "c2ln").2.1 "not a PEM key" rfl

theorem intercalate_reason :
    String.intercalate "; " ["Hash invalide ou chaîne cassée"]
      = "Hash invalide ou chaîne cassée" := by decide

/-- C1 (amended): in a ledger correctly fingerprinted in timestamp
order, mutating fields of one stored transaction (stored fingerprints
untouched, chronological position preserved, recomputed digest now
different) makes the audit report exactly that transaction as invalid
with the hash-mismatch reason, while every chronologically later
transaction is still reported valid — their recomputed fingerprints
use the predecessors' stored fingerprints, which the mutation does not
change. -/
theorem audit_mutation_detection
    (Hf : String → String → String → String → String → String)
    (keys : String → Option String) (VS : String → String → String → Bool)
    (L pre suf : List Tx) (txm txm' : Tx) (p1' p2' t' a' hm : String)
    (hsort : sortTxs L = pre ++ txm' :: suf)
    (horig : chainOk Hf "0" (pre ++ txm :: suf) = true)
    (hsame : txm'.h = txm.h)
    (hstored : txm.h = some hm)
    (hp1 : txm'.p1 = some p1') (hp2 : txm'.p2 = some p2')
    (ht : txm'.t = some t') (ha : txm'.a = some a')
    (hdiff : Hf p1' p2' t' a' (lastStoredH "0" pre) ≠ hm)
    (hsigpre : ∀ tx ∈ pre, txSigOK keys VS tx = true)
    (hsigm : txSigOK keys VS txm' = true)
    (hsigsuf : ∀ tx ∈ suf, txSigOK keys VS tx = true) :
    (verify_integrity_with Hf keys VS L).valid_transactions
        = pre.map Tx.id ++ suf.map Tx.id
    ∧ (verify_integrity_with Hf keys VS L).invalid_transactions
        = [InvalidEntry.checkFailed txm'.id "Hash invalide ou chaîne cassée"
            (some (Hf p1' p2' t' a' (lastStoredH "0" pre))) (some hm)
            (some (lastStoredH "0" pre))
            (if txm'.signature.isSome then some true else none) txm'] := by
  rw [chainOk_append, Bool.and_eq_true] at horig
  obtain ⟨hcpre, hcrest⟩ := horig
  obtain ⟨im, mp1, mp2, mt, ma, mh, msg0⟩ := txm
  simp only at hstored hsame
  subst hstored
  cases mp1 with
  | none => simp [chainOk] at hcrest
  | some mp1v =>
  cases mp2 with
  | none => simp [chainOk] at hcrest
  | some mp2v =>
  cases mt with
  | none => simp [chainOk] at hcrest
  | some mtv =>
  cases ma with
  | none => simp [chainOk] at hcrest
  | some mav =>
  simp only [chainOk, Bool.and_eq_true] at hcrest
  obtain ⟨hmbeq, hcsuf⟩ := hcrest
  obtain ⟨im', q1, q2, qt, qa, qh, qsg⟩ := txm'
  simp only at hsame hp1 hp2 ht ha
  subst hsame hp1 hp2 ht ha
  simp only [txSigOK, Option.getD_some] at hsigm
  have h1 : List.foldl (auditStep Hf keys VS) ⟨[], [], "0"⟩ pre
      = ⟨[] ++ pre.map Tx.id, [], lastStoredH "0" pre⟩ :=
    foldl_auditStep_validRun Hf keys VS pre [] [] "0" hcpre hsigpre
  simp only [List.nil_append] at h1
  have hbeqf : (Hf p1' p2' t' a' (lastStoredH "0" pre) == hm) = false := by
    rw [beq_eq_false_iff_ne]
    exact hdiff
  have h2 : auditStep Hf keys VS ⟨pre.map Tx.id, [], lastStoredH "0" pre⟩
        ⟨im', some p1', some p2', some t', some a', some hm, qsg⟩
      = ⟨pre.map Tx.id,
          [InvalidEntry.checkFailed im' "Hash invalide ou chaîne cassée"
            (some (Hf p1' p2' t' a' (lastStoredH "0" pre))) (some hm)
            (some (lastStoredH "0" pre))
            (if qsg.isSome then some true else none)
            ⟨im', some p1', some p2', some t', some a', some hm, qsg⟩], hm⟩ := by
    simp [auditStep, hbeqf, hsigm, intercalate_reason]
  have h3 : List.foldl (auditStep Hf keys VS)
        ⟨pre.map Tx.id,
          [InvalidEntry.checkFailed im' "Hash invalide ou chaîne cassée"
            (some (Hf p1' p2' t' a' (lastStoredH "0" pre))) (some hm)
            (some (lastStoredH "0" pre))
            (if qsg.isSome then some true else none)
            ⟨im', some p1', some p2', some t', some a', some hm, qsg⟩], hm⟩ suf
      = ⟨pre.map Tx.id ++ suf.map Tx.id,
          [InvalidEntry.checkFailed im' "Hash invalide ou chaîne cassée"
            (some (Hf p1' p2' t' a' (lastStoredH "0" pre))) (some hm)
            (some (lastStoredH "0" pre))
            (if qsg.isSome then some true else none)
            ⟨im', some p1', some p2', some t', some a', some hm, qsg⟩], lastStoredH hm suf⟩ :=
    foldl_auditStep_validRun Hf keys VS suf (pre.map Tx.id) _ hm hcsuf hsigsuf
  have hv1 : (verify_integrity_with Hf keys VS L).valid_transactions
      = ((sortTxs L).foldl (auditStep Hf keys VS) ⟨[], [], "0"⟩).valid_txs := rfl
  have hv2 : (verify_integrity_with Hf keys VS L).invalid_transactions
      = ((sortTxs L).foldl (auditStep Hf keys VS) ⟨[], [], "0"⟩).invalid_txs := rfl
  constructor
  · rw [hv1, hsort, List.foldl_append, h1, List.foldl_cons, h2, h3]
  · rw [hv2, hsort, List.foldl_append, h1, List.foldl_cons, h2, h3]

set_option maxRecDepth 100000 in
/-- Counterexample to C1 as stated: the two-transaction ledger
`[txT1, txT2]` is correctly fingerprinted in timestamp order; mutating
only T1's amount (`txT1mut`, stored fingerprints untouched) makes the
audit report T1 invalid for a hash mismatch, but the chronologically
later T2 is still reported valid — `hash_valid` does **not** propagate
to later transactions, because the audit feeds each transaction its
predecessor's stored (unchanged) fingerprint. -/
theorem mutation_propagation_counterexample :
    chainOk compute_hash "0" [txT1, txT2] = true
    ∧ txT1mut.h = txT1.h
    ∧ txT1mut.p1 = txT1.p1 ∧ txT1mut.p2 = txT1.p2 ∧ txT1mut.t = txT1.t
    ∧ txT1mut.a = some "500" ∧ txT1.a = some "50"
    ∧ (verify_integrity keysNone vsFalse [txT1mut, txT2]).valid_transactions = [some 2]
    ∧ (verify_integrity keysNone vsFalse [txT1mut, txT2]).invalid_transactions
        = [InvalidEntry.checkFailed (some 1) "Hash invalide ou chaîne cassée"
            (some (compute_hash "alice" "bob" "t1" "500" "0"))
            (some (compute_hash "alice" "bob" "t1" "50" "0")) (some "0") none txT1mut] := by
  decide

set_option maxRecDepth 100000 in
/-- Witness for C1 (amended) at the concrete mutated example ledger. -/
theorem audit_mutation_detection_witness :
    (verify_integrity_with compute_hash keysNone vsFalse [txT1mut, txT2]).valid_transactions
        = ([] : List Tx).map Tx.id ++ [txT2].map Tx.id
    ∧ (verify_integrity_with compute_hash keysNone vsFalse [txT1mut, txT2]).invalid_transactions
        = [InvalidEntry.checkFailed txT1mut.id "Hash invalide ou chaîne cassée"
            (some (compute_hash "alice" "bob" "t1" "500" (lastStoredH "0" [])))
            (some (compute_hash "alice" "bob" "t1" "50" "0"))
            (some (lastStoredH "0" []))
            (if txT1mut.signature.isSome then some true else none) txT1mut] :=
  audit_mutation_detection compute_hash keysNone vsFalse [txT1mut, txT2] [] [txT2] txT1 txT1mut
    "alice" "bob" "t1" "500" (compute_hash "alice" "bob" "t1" "50" "0")
    (by decide) (by decide) rfl rfl rfl rfl rfl rfl (by decide) (by decide) rfl (by decide)
